import Mathlib

/-!
Verification of the geospatial enrichment core of the hospital-search
repository (scripts/build-district-aliases.js and the enrichment script
bundled with scripts/fetch-osm.js).

Shallow embedding conventions:
* JavaScript floating-point numbers are modelled as rationals (`ℚ`); the
  `NaN`-producing paths of `parseFloat`/`Number` are modelled by an abstract
  numeric parser `NumParser : String → Option ℚ` returning `none` where the
  source would produce `NaN`.
* The haversine great-circle distance (a composition of transcendental
  library functions over floats) is modelled as an abstract distance
  parameter `Dist`; every theorem about the locators is proved for an
  arbitrary distance function and therefore holds for the source's
  haversine instantiation in particular.
* The regular-expression coordinate extraction from a map-link string is
  modelled as an abstract parameter `String → Option (ℚ × ℚ)`.
* JavaScript `Map`s built by insert-if-absent are modelled as association
  lists extended at the tail, preserving insertion order; `Set`s of strings
  are modelled as `Finset String`.
-/

/-- Association-list lookup, modelling `Map.prototype.get` /
object-key indexing for string-keyed maps. -/
def alookup {β : Type} (k : String) : List (String × β) → Option β
  | [] => none
  | (k', v) :: l => if k' = k then some v else alookup k l

/-- Axis-aligned bounding box as produced by `parseBounds`. -/
structure Bounds where
  minLat : ℚ
  maxLat : ℚ
  minLon : ℚ
  maxLon : ℚ
deriving Repr, DecidableEq

/-- `isInBounds(lat, lon, bounds)` from the enrichment script. -/
def isInBounds (lat lon : ℚ) (b : Bounds) : Bool :=
  decide (b.minLat ≤ lat) && decide (lat ≤ b.maxLat) &&
  decide (b.minLon ≤ lon) && decide (lon ≤ b.maxLon)

/-- A legacy-district record as consumed by the locator (`oldDistricts`
entries: stored records whose centroid coordinates parsed). -/
structure OldDistrict where
  province : String
  provinceShort : String
  district : String
  districtShort : String
  districtType : String
  lat : ℚ
  lon : ℚ
  bounds : Option Bounds
  provinceCode : String
  districtCode : String
deriving Repr, DecidableEq

/-- A reorganized-ward record (`newWards` entries). -/
structure Ward where
  province : String
  provinceShort : String
  ward : String
  wardShort : String
  wardType : String
  provinceCode : String
  wardCode : String
  lat : ℚ
  lon : ℚ
  areaKm2 : ℚ
deriving Repr, DecidableEq

/-- Abstract distance function standing for the source's `haversine`
(lat1, lon1, lat2, lon2 ↦ distance in km). -/
abbrev DistFn := ℚ → ℚ → ℚ → ℚ → ℚ

/-- One step of the `dist < bestDist` running-minimum scan shared by all
locator loops (`bestDist` starts at `Infinity`, modelled by `none`). -/
def better {α : Type} (f : α → ℚ) (acc : Option (α × ℚ)) (x : α) :
    Option (α × ℚ) :=
  match acc with
  | none => some (x, f x)
  | some (b, bd) => if f x < bd then some (x, f x) else some (b, bd)

/-- Running-minimum scan over a whole list. -/
def nearestScan {α : Type} (f : α → ℚ) (l : List α) : Option (α × ℚ) :=
  l.foldl (better f) none

/-- The element a strict-improvement scan seeded with `b` settles on. -/
def selectFirst {α : Type} (f : α → ℚ) (b : α) : List α → α
  | [] => b
  | x :: xs => if f x < f b then selectFirst f x xs else selectFirst f b xs

/-- Distance from a query coordinate to a district centroid. -/
def oldDistance (dist : DistFn) (la lo : ℚ) (d : OldDistrict) : ℚ :=
  dist la lo d.lat d.lon

/-- `d.bounds && isInBounds(coords.lat, coords.lon, d.bounds)`. -/
def containsCoord (la lo : ℚ) (d : OldDistrict) : Bool :=
  match d.bounds with
  | some b => isInBounds la lo b
  | none => false

/-- Loop body of the containment pass (Step A, first loop). -/
def containStep (dist : DistFn) (la lo : ℚ) (acc : Option (OldDistrict × ℚ))
    (d : OldDistrict) : Option (OldDistrict × ℚ) :=
  if containsCoord la lo d then better (oldDistance dist la lo) acc d else acc

/-- Loop body of the fallback pass (Step A, second loop):
`if (dist < bestDist && dist < 15)`. -/
def fallbackStep (dist : DistFn) (la lo : ℚ) (acc : Option (OldDistrict × ℚ))
    (d : OldDistrict) : Option (OldDistrict × ℚ) :=
  let dd := oldDistance dist la lo d
  match acc with
  | none => if dd < 15 then some (d, dd) else none
  | some (b, bd) => if dd < bd ∧ dd < 15 then some (d, dd) else some (b, bd)

/-- `locateOldUnit`: Step A of the enrichment loop — bounding-box
containment pass, then nearest-centroid fallback under 15 km. -/
def locateOldUnitWith (dist : DistFn) (ds : List OldDistrict) (la lo : ℚ) :
    Option OldDistrict :=
  match ds.foldl (containStep dist la lo) none with
  | some (d, _) => some d
  | none => (ds.foldl (fallbackStep dist la lo) none).map Prod.fst

/-- The per-province ward bucket (`newWardsByProvince.get(p)`): wards with
the given province short name, in load order. -/
def wardBucket (ws : List Ward) (p : String) : List Ward :=
  ws.filter (fun w => w.provinceShort == p)

/-- The candidate ward scope, modelling
`newProvShort && newWardsByProvince.has(newProvShort) ? bucket : newWards`
(an empty-string province name is falsy and falls back to the full list). -/
def newUnitScope (ws : List Ward) (cp : Option String) : List Ward :=
  match cp with
  | some p => if p ≠ "" ∧ wardBucket ws p ≠ [] then wardBucket ws p else ws
  | none => ws

/-- Distance from a query coordinate to a ward centroid. -/
def wardDistance (dist : DistFn) (la lo : ℚ) (w : Ward) : ℚ :=
  dist la lo w.lat w.lon

/-- `locateNewUnit`: Step B of the enrichment loop — nearest ward within
the candidate scope, with no distance cutoff. -/
def locateNewUnitWith (dist : DistFn) (ws : List Ward) (cp : Option String)
    (la lo : ℚ) : Option Ward :=
  (nearestScan (wardDistance dist la lo) (newUnitScope ws cp)).map Prod.fst

/-- Abstract numeric parser standing for `parseFloat` / `Number` on trimmed
CSV fields; `none` models `NaN`. -/
abbrev NumParser := String → Option ℚ

/-- A raw row of the legacy-district CSV after `parseCSV` (header-named,
trimmed string fields). -/
structure DistrictRow where
  provinceCode : String
  province : String
  provinceShort : String
  districtCode : String
  district : String
  districtShort : String
  districtType : String
  districtLat : String
  districtLon : String
  districtBounds : String
deriving Repr, DecidableEq

/-- A raw row of the conversion CSV after `parseCSV`. -/
structure ConvRow where
  provinceCode : String
  districtCode : String
  provinceShort : String
  newProvince : String
  newProvinceShort : String
  isMergedProvince : String
deriving Repr, DecidableEq

/-- JavaScript whitespace test for `String.prototype.trim`. -/
def isSpace (c : Char) : Bool :=
  c = ' ' || c = '\t' || c = '\n' || c = '\r'

/-- `String.prototype.trim` (structural, over the character list). -/
def strTrim (s : String) : String :=
  String.mk (((s.data.dropWhile isSpace).reverse.dropWhile isSpace).reverse)

/-- `String.prototype.split(sep)` for a one-character separator
(structural; an empty string yields `[""]`, as in JavaScript). -/
def splitOnCharAux (sep : Char) : List Char → List Char → List (List Char)
  | [], cur => [cur.reverse]
  | c :: rest, cur =>
    if c = sep then cur.reverse :: splitOnCharAux sep rest []
    else splitOnCharAux sep rest (c :: cur)

/-- `str.split(sep)` as a list of strings. -/
def splitChar (sep : Char) (s : String) : List String :=
  (splitOnCharAux sep s.data []).map String.mk

/-- Component access in `parts[i].split(",").map(Number)` followed by
destructuring: a missing component is `undefined`, hence `NaN` (`none`). -/
def getComp (num : NumParser) (l : List String) (i : ℕ) : Option ℚ :=
  (l.get? i).bind num

/-- `parseBounds`: parses `"lat1,lon1 – lat2,lon2"`, rejecting a falsy
string, a part count other than 2 and non-numeric components, and
normalizing the corners with `Math.min` / `Math.max`. -/
def parseBounds (num : NumParser) (s : String) : Option Bounds :=
  if s = "" then none
  else
    match (splitChar '\u2013' s).map strTrim with
    | [p1, p2] =>
      let c1 := splitChar ',' p1
      let c2 := splitChar ',' p2
      match getComp num c1 0, getComp num c1 1, getComp num c2 0,
          getComp num c2 1 with
      | some lat1, some lon1, some lat2, some lon2 =>
        some ⟨min lat1 lat2, max lat1 lat2, min lon1 lon2, max lon1 lon2⟩
      | _, _, _, _ => none
    | _ => none

/-- The district record stored in `districtMap` (centroid fields may have
failed to parse; such records are filtered out before location). -/
structure StoredDistrict where
  province : String
  provinceShort : String
  district : String
  districtShort : String
  districtType : String
  lat : Option ℚ
  lon : Option ℚ
  bounds : Option Bounds
  provinceCode : String
  districtCode : String
deriving Repr, DecidableEq

/-- The value written into `districtMap` for a row. -/
def toStored (num : NumParser) (r : DistrictRow) : StoredDistrict :=
  { province := r.province
    provinceShort := r.provinceShort
    district := r.district
    districtShort := r.districtShort
    districtType := r.districtType
    lat := num r.districtLat
    lon := num r.districtLon
    bounds := parseBounds num r.districtBounds
    provinceCode := r.provinceCode
    districtCode := r.districtCode }

/-- The composite key `` `${row.provinceCode}|${row.districtCode}` `` of a
district row. -/
def rowKeyD (r : DistrictRow) : String := r.provinceCode ++ "|" ++ r.districtCode

/-- Insert-if-absent step of the `districtMap` load loop. -/
def districtStep (num : NumParser) (m : List (String × StoredDistrict))
    (r : DistrictRow) : List (String × StoredDistrict) :=
  if (alookup (rowKeyD r) m).isSome then m else m ++ [(rowKeyD r, toStored num r)]

/-- The `districtMap` load: first-seen-wins over the legacy CSV rows. -/
def loadDistricts (num : NumParser) (rows : List DistrictRow) :
    List (String × StoredDistrict) :=
  rows.foldl (districtStep num) []

/-- The value stored in `districtToNewProvince` for a conversion row. -/
structure ConvVal where
  newProvince : String
  newProvinceShort : String
  isMergedProvince : Bool
deriving Repr, DecidableEq

/-- Conversion of a row: `isMergedProvince: row.isMergedProvince === "True"`. -/
def toConvVal (r : ConvRow) : ConvVal :=
  { newProvince := r.newProvince
    newProvinceShort := r.newProvinceShort
    isMergedProvince := r.isMergedProvince = "True" }

/-- The composite key of a conversion row. -/
def rowKeyC (r : ConvRow) : String := r.provinceCode ++ "|" ++ r.districtCode

/-- Insert-if-absent step of the `districtToNewProvince` load loop. -/
def convStep (m : List (String × ConvVal)) (r : ConvRow) :
    List (String × ConvVal) :=
  if (alookup (rowKeyC r) m).isSome then m else m ++ [(rowKeyC r, toConvVal r)]

/-- The `districtToNewProvince` load: first-seen-wins over conversion rows. -/
def loadConv (rows : List ConvRow) : List (String × ConvVal) :=
  rows.foldl convStep []

/-- Step of building `oldToNewProvince` (province-level, first-seen-wins,
skipping rows with an empty trimmed old or new short name). -/
def oldToNewStep (m : List (String × String)) (r : ConvRow) :
    List (String × String) :=
  let oldProv := strTrim r.provinceShort
  let newProv := strTrim r.newProvinceShort
  if oldProv ≠ "" ∧ newProv ≠ "" ∧ (alookup oldProv m).isNone then
    m ++ [(oldProv, newProv)]
  else m

/-- The `oldToNewProvince` map used to constrain the ward search. -/
def buildOldToNew (rows : List ConvRow) : List (String × String) :=
  rows.foldl oldToNewStep []

/-- `oldToNewProvince.get(provinceShort) || provinceShort` (the `||` also
catches an empty-string mapped value, which the build guard rules out). -/
def remapProvince (m : List (String × String)) (provinceShort : String) :
    String :=
  match alookup provinceShort m with
  | some v => if v = "" then provinceShort else v
  | none => provinceShort

/-- An entry of the `aliasData` lookup (`district_aliases.json`). -/
structure AliasEntry where
  oldProvince : String
  oldDistrict : String
  oldDistrictShort : String
  oldDistrictType : String
  newProvince : String
  provinceChanged : Bool
  lat : ℚ
  lon : ℚ
  bounds : Option Bounds
deriving Repr, DecidableEq

/-- The composite key of a located district. -/
def districtKey (d : OldDistrict) : String :=
  d.provinceCode ++ "|" ++ d.districtCode

/-- The `aliasData[key]` entry built for one old district. -/
def makeAliasEntry (conv : List (String × ConvVal)) (d : OldDistrict) :
    AliasEntry :=
  match alookup (districtKey d) conv with
  | some v =>
    { oldProvince := d.provinceShort
      oldDistrict := d.district
      oldDistrictShort := d.districtShort
      oldDistrictType := d.districtType
      newProvince := v.newProvinceShort
      provinceChanged := v.isMergedProvince
      lat := d.lat
      lon := d.lon
      bounds := d.bounds }
  | none =>
    { oldProvince := d.provinceShort
      oldDistrict := d.district
      oldDistrictShort := d.districtShort
      oldDistrictType := d.districtType
      newProvince := d.provinceShort
      provinceChanged := false
      lat := d.lat
      lon := d.lon
      bounds := d.bounds }

/-- The full `aliasData` mapping over the located district collection. -/
def buildAliasData (conv : List (String × ConvVal)) (ds : List OldDistrict) :
    List (String × AliasEntry) :=
  ds.map (fun d => (districtKey d, makeAliasEntry conv d))

/-- The alias strings in the order the enrichment loop calls
`aliases.add(...)` (before `aliases.delete("")`). -/
def aliasCandidates (bestMatch : Option OldDistrict)
    (aliasData : List (String × AliasEntry)) (bestNewWard : Option Ward) :
    List String :=
  (match bestMatch with
   | some d =>
     [d.district, d.districtShort, d.provinceShort] ++
     (match alookup (districtKey d) aliasData with
      | some a =>
        (if a.provinceChanged then [a.oldProvince] else []) ++
        (if a.newProvince ≠ "" then [a.newProvince] else [])
      | none => [])
   | none => []) ++
  (match bestNewWard with
   | some w => [w.ward, w.wardShort, w.provinceShort]
   | none => [])

/-- Adding a list of strings to a set, one `Set.prototype.add` at a time. -/
def insertAll (l : List String) (s : Finset String) : Finset String :=
  l.foldl (fun s a => insert a s) s

/-- The alias set of one enriched record: every `aliases.add(...)` call in
loop order followed by `aliases.delete("")`. -/
def buildAliases (bestMatch : Option OldDistrict)
    (aliasData : List (String × AliasEntry)) (bestNewWard : Option Ward) :
    Finset String :=
  (insertAll (aliasCandidates bestMatch aliasData bestNewWard) ∅).erase ""

/-- A facility record; the computed administrative fields are `none` until
the enrichment loop assigns them. -/
structure Hospital where
  name : String
  district : String
  city : String
  address : String
  mapsUrl : String
  oldDistrict : Option String
  oldProvince : Option String
  newWard : Option String
  newProvince : Option String
  aliases : Option (Finset String)
deriving DecidableEq

/-- The three counters reported by the enrichment driver. -/
structure Stats where
  oldMatched : ℕ
  newWardMatched : ℕ
  unmatched : ℕ
deriving Repr, DecidableEq

/-- Componentwise accumulation of counters. -/
def addStats (a b : Stats) : Stats :=
  ⟨a.oldMatched + b.oldMatched, a.newWardMatched + b.newWardMatched,
   a.unmatched + b.unmatched⟩

/-- Sum of a list of counter deltas. -/
def sumStats (l : List Stats) : Stats :=
  l.foldl addStats ⟨0, 0, 0⟩

/-- The reference data and abstracted library functions the enrichment
loop reads (immutable across the run). -/
structure Env where
  dist : DistFn
  ec : String → Option (ℚ × ℚ)
  oldDistricts : List OldDistrict
  aliasData : List (String × AliasEntry)
  oldToNew : List (String × String)
  newWards : List Ward

/-- One iteration of the enrichment loop over a facility record: coordinate
extraction, Step A, province remap, Step B, alias building, field writes,
and this record's contribution to the three counters. -/
def enrichRecord (env : Env) (h : Hospital) : Hospital × Stats :=
  match env.ec h.mapsUrl with
  | none => (h, ⟨0, 0, 1⟩)
  | some (la, lo) =>
    let bestMatch := locateOldUnitWith env.dist env.oldDistricts la lo
    let h1 :=
      match bestMatch with
      | some d =>
        { h with oldDistrict := some d.districtShort
                 oldProvince := some d.provinceShort }
      | none => h
    let cp : Option String :=
      bestMatch.map (fun d => remapProvince env.oldToNew d.provinceShort)
    let bestNewWard := locateNewUnitWith env.dist env.newWards cp la lo
    let h2 :=
      match bestNewWard with
      | some w =>
        { h1 with newWard := some w.wardShort
                  newProvince := some w.provinceShort }
      | none => h1
    let h3 :=
      { h2 with aliases := some (buildAliases bestMatch env.aliasData bestNewWard) }
    (h3, ⟨(if bestMatch.isSome then 1 else 0),
          (if bestNewWard.isSome then 1 else 0),
          (if bestMatch.isNone ∧ bestNewWard.isNone then 1 else 0)⟩)

/-- Loop step of the driver: append the enriched record, accumulate counters. -/
def enrichStep (env : Env) (acc : List Hospital × Stats) (h : Hospital) :
    List Hospital × Stats :=
  let r := enrichRecord env h
  (acc.1 ++ [r.1], addStats acc.2 r.2)

/-- The single pass of the enrichment driver over the facility collection,
returning the rewritten collection and the reported counters. -/
def enrichPass (env : Env) (hs : List Hospital) : List Hospital × Stats :=
  hs.foldl (enrichStep env) ([], ⟨0, 0, 0⟩)

/-- Canonical (NFD) decomposition table for the precomposed letters of the
Vietnamese repertoire, with combining marks already in canonical order;
this models `String.prototype.normalize("NFD")` restricted to the
character repertoire the scripts process.  `đ`/`Đ` (U+0111/U+0110) have no
canonical decomposition and deliberately do not appear. -/
def nfdTable : List (Char × List Char) := [
  ('\u00E0', ['\u0061', '\u0300']),
  ('\u00E1', ['\u0061', '\u0301']),
  ('\u00E3', ['\u0061', '\u0303']),
  ('\u1EA3', ['\u0061', '\u0309']),
  ('\u1EA1', ['\u0061', '\u0323']),
  ('\u0103', ['\u0061', '\u0306']),
  ('\u1EB1', ['\u0061', '\u0306', '\u0300']),
  ('\u1EAF', ['\u0061', '\u0306', '\u0301']),
  ('\u1EB5', ['\u0061', '\u0306', '\u0303']),
  ('\u1EB3', ['\u0061', '\u0306', '\u0309']),
  ('\u1EB7', ['\u0061', '\u0323', '\u0306']),
  ('\u00E2', ['\u0061', '\u0302']),
  ('\u1EA7', ['\u0061', '\u0302', '\u0300']),
  ('\u1EA5', ['\u0061', '\u0302', '\u0301']),
  ('\u1EAB', ['\u0061', '\u0302', '\u0303']),
  ('\u1EA9', ['\u0061', '\u0302', '\u0309']),
  ('\u1EAD', ['\u0061', '\u0323', '\u0302']),
  ('\u00E8', ['\u0065', '\u0300']),
  ('\u00E9', ['\u0065', '\u0301']),
  ('\u1EBD', ['\u0065', '\u0303']),
  ('\u1EBB', ['\u0065', '\u0309']),
  ('\u1EB9', ['\u0065', '\u0323']),
  ('\u00EA', ['\u0065', '\u0302']),
  ('\u1EC1', ['\u0065', '\u0302', '\u0300']),
  ('\u1EBF', ['\u0065', '\u0302', '\u0301']),
  ('\u1EC5', ['\u0065', '\u0302', '\u0303']),
  ('\u1EC3', ['\u0065', '\u0302', '\u0309']),
  ('\u1EC7', ['\u0065', '\u0323', '\u0302']),
  ('\u00EC', ['\u0069', '\u0300']),
  ('\u00ED', ['\u0069', '\u0301']),
  ('\u0129', ['\u0069', '\u0303']),
  ('\u1EC9', ['\u0069', '\u0309']),
  ('\u1ECB', ['\u0069', '\u0323']),
  ('\u00F2', ['\u006F', '\u0300']),
  ('\u00F3', ['\u006F', '\u0301']),
  ('\u00F5', ['\u006F', '\u0303']),
  ('\u1ECF', ['\u006F', '\u0309']),
  ('\u1ECD', ['\u006F', '\u0323']),
  ('\u00F4', ['\u006F', '\u0302']),
  ('\u1ED3', ['\u006F', '\u0302', '\u0300']),
  ('\u1ED1', ['\u006F', '\u0302', '\u0301']),
  ('\u1ED7', ['\u006F', '\u0302', '\u0303']),
  ('\u1ED5', ['\u006F', '\u0302', '\u0309']),
  ('\u1ED9', ['\u006F', '\u0323', '\u0302']),
  ('\u01A1', ['\u006F', '\u031B']),
  ('\u1EDD', ['\u006F', '\u031B', '\u0300']),
  ('\u1EDB', ['\u006F', '\u031B', '\u0301']),
  ('\u1EE1', ['\u006F', '\u031B', '\u0303']),
  ('\u1EDF', ['\u006F', '\u031B', '\u0309']),
  ('\u1EE3', ['\u006F', '\u031B', '\u0323']),
  ('\u00F9', ['\u0075', '\u0300']),
  ('\u00FA', ['\u0075', '\u0301']),
  ('\u0169', ['\u0075', '\u0303']),
  ('\u1EE7', ['\u0075', '\u0309']),
  ('\u1EE5', ['\u0075', '\u0323']),
  ('\u01B0', ['\u0075', '\u031B']),
  ('\u1EEB', ['\u0075', '\u031B', '\u0300']),
  ('\u1EE9', ['\u0075', '\u031B', '\u0301']),
  ('\u1EEF', ['\u0075', '\u031B', '\u0303']),
  ('\u1EED', ['\u0075', '\u031B', '\u0309']),
  ('\u1EF1', ['\u0075', '\u031B', '\u0323']),
  ('\u1EF3', ['\u0079', '\u0300']),
  ('\u00FD', ['\u0079', '\u0301']),
  ('\u1EF9', ['\u0079', '\u0303']),
  ('\u1EF7', ['\u0079', '\u0309']),
  ('\u1EF5', ['\u0079', '\u0323']),
  ('\u00C0', ['\u0041', '\u0300']),
  ('\u00C1', ['\u0041', '\u0301']),
  ('\u00C3', ['\u0041', '\u0303']),
  ('\u1EA2', ['\u0041', '\u0309']),
  ('\u1EA0', ['\u0041', '\u0323']),
  ('\u0102', ['\u0041', '\u0306']),
  ('\u1EB0', ['\u0041', '\u0306', '\u0300']),
  ('\u1EAE', ['\u0041', '\u0306', '\u0301']),
  ('\u1EB4', ['\u0041', '\u0306', '\u0303']),
  ('\u1EB2', ['\u0041', '\u0306', '\u0309']),
  ('\u1EB6', ['\u0041', '\u0323', '\u0306']),
  ('\u00C2', ['\u0041', '\u0302']),
  ('\u1EA6', ['\u0041', '\u0302', '\u0300']),
  ('\u1EA4', ['\u0041', '\u0302', '\u0301']),
  ('\u1EAA', ['\u0041', '\u0302', '\u0303']),
  ('\u1EA8', ['\u0041', '\u0302', '\u0309']),
  ('\u1EAC', ['\u0041', '\u0323', '\u0302']),
  ('\u00C8', ['\u0045', '\u0300']),
  ('\u00C9', ['\u0045', '\u0301']),
  ('\u1EBC', ['\u0045', '\u0303']),
  ('\u1EBA', ['\u0045', '\u0309']),
  ('\u1EB8', ['\u0045', '\u0323']),
  ('\u00CA', ['\u0045', '\u0302']),
  ('\u1EC0', ['\u0045', '\u0302', '\u0300']),
  ('\u1EBE', ['\u0045', '\u0302', '\u0301']),
  ('\u1EC4', ['\u0045', '\u0302', '\u0303']),
  ('\u1EC2', ['\u0045', '\u0302', '\u0309']),
  ('\u1EC6', ['\u0045', '\u0323', '\u0302']),
  ('\u00CC', ['\u0049', '\u0300']),
  ('\u00CD', ['\u0049', '\u0301']),
  ('\u0128', ['\u0049', '\u0303']),
  ('\u1EC8', ['\u0049', '\u0309']),
  ('\u1ECA', ['\u0049', '\u0323']),
  ('\u00D2', ['\u004F', '\u0300']),
  ('\u00D3', ['\u004F', '\u0301']),
  ('\u00D5', ['\u004F', '\u0303']),
  ('\u1ECE', ['\u004F', '\u0309']),
  ('\u1ECC', ['\u004F', '\u0323']),
  ('\u00D4', ['\u004F', '\u0302']),
  ('\u1ED2', ['\u004F', '\u0302', '\u0300']),
  ('\u1ED0', ['\u004F', '\u0302', '\u0301']),
  ('\u1ED6', ['\u004F', '\u0302', '\u0303']),
  ('\u1ED4', ['\u004F', '\u0302', '\u0309']),
  ('\u1ED8', ['\u004F', '\u0323', '\u0302']),
  ('\u01A0', ['\u004F', '\u031B']),
  ('\u1EDC', ['\u004F', '\u031B', '\u0300']),
  ('\u1EDA', ['\u004F', '\u031B', '\u0301']),
  ('\u1EE0', ['\u004F', '\u031B', '\u0303']),
  ('\u1EDE', ['\u004F', '\u031B', '\u0309']),
  ('\u1EE2', ['\u004F', '\u031B', '\u0323']),
  ('\u00D9', ['\u0055', '\u0300']),
  ('\u00DA', ['\u0055', '\u0301']),
  ('\u0168', ['\u0055', '\u0303']),
  ('\u1EE6', ['\u0055', '\u0309']),
  ('\u1EE4', ['\u0055', '\u0323']),
  ('\u01AF', ['\u0055', '\u031B']),
  ('\u1EEA', ['\u0055', '\u031B', '\u0300']),
  ('\u1EE8', ['\u0055', '\u031B', '\u0301']),
  ('\u1EEE', ['\u0055', '\u031B', '\u0303']),
  ('\u1EEC', ['\u0055', '\u031B', '\u0309']),
  ('\u1EF0', ['\u0055', '\u031B', '\u0323']),
  ('\u1EF2', ['\u0059', '\u0300']),
  ('\u00DD', ['\u0059', '\u0301']),
  ('\u1EF8', ['\u0059', '\u0303']),
  ('\u1EF6', ['\u0059', '\u0309']),
  ('\u1EF4', ['\u0059', '\u0323'])
]

/-- Decomposition of one character: table entry, or the character itself. -/
def decomposeChar (c : Char) : List Char :=
  match nfdTable.find? (fun e => e.1 == c) with
  | some e => e.2
  | none => [c]

/-- `str.normalize("NFD")` over the modelled repertoire. -/
def nfd (l : List Char) : List Char :=
  l.flatMap decomposeChar

/-- Membership in the combining diacritical marks block:
`/[̀-ͯ]/`. -/
def combining (c : Char) : Bool :=
  decide (0x300 ≤ c.toNat) && decide (c.toNat ≤ 0x36F)

/-- `.replace(/đ/g, "d").replace(/Đ/g, "D")` as a character map. -/
def mapD (c : Char) : Char :=
  if c = 'đ' then 'd' else if c = 'Đ' then 'D' else c

/-- `removeDiacritics` on a character list: decompose, strip combining
marks, map `đ`/`Đ` to `d`/`D`. -/
def removeDiacriticsL (l : List Char) : List Char :=
  ((nfd l).filter (fun c => !combining c)).map mapD

/-- `removeDiacritics(str)` from the scripts. -/
def removeDiacritics (s : String) : String :=
  String.mk (removeDiacriticsL s.data)

/-- Characters that decompose trivially by construction of the table: the
ASCII range and the combining-marks block, which between them contain
every character a table decomposition produces and no table key. -/
def outOK (c : Char) : Bool :=
  decide (c.toNat < 0x80) ||
  (decide (0x300 ≤ c.toNat) && decide (c.toNat ≤ 0x36F))

/-! ### Concrete sample data used by witnesses and counterexamples -/

/-- A concrete kernel-evaluable stand-in distance function used to
instantiate the abstract `DistFn` in witnesses: zero at the target
centroid, 100 km elsewhere (rational addition does not reduce in the
kernel, so witnesses avoid arithmetic in the distance). -/
def sampleDist : DistFn := fun la lo la2 lo2 =>
  if la = la2 ∧ lo = lo2 then 0 else 100

/-- A concrete numeric parser for witness rows. -/
def sampleNum : NumParser := fun s =>
  if s = "10" then some 10
  else if s = "106" then some 106
  else if s = "1" then some 1
  else if s = "2" then some 2
  else if s = "3" then some 3
  else if s = "4" then some 4
  else none

/-- A planted fixture in the style of spec §8: key `P01|D05`, centroid
`10,106`, bounding box `9,105 – 11,107` (whole-number corners keep kernel
evaluation of rational arithmetic cheap). -/
def districtD5 : OldDistrict :=
  { province := "Tinh P", provinceShort := "P", district := "Huyen D5"
    districtShort := "D5", districtType := "huyen", lat := 10, lon := 106
    bounds := some ⟨9, 11, 105, 107⟩
    provinceCode := "P01", districtCode := "D05" }

/-- A district with no bounding box whose centroid is far from the fixture
coordinate. -/
def districtFar : OldDistrict :=
  { province := "Tinh Q", provinceShort := "Q", district := "Huyen Far"
    districtShort := "Far", districtType := "huyen", lat := 20, lon := 105
    bounds := none, provinceCode := "Q01", districtCode := "D99" }

/-- A district whose record carries an empty province short name (loadable
from a CSV row with that column blank). -/
def districtD2 : OldDistrict :=
  { province := "Tinh X", provinceShort := "X", district := "Huyen 2"
    districtShort := "H2", districtType := "huyen", lat := 10, lon := 106
    bounds := none, provinceCode := "P1", districtCode := "D2" }

/-- A ward whose province short name is the empty string. -/
def wardA : Ward :=
  { province := "", provinceShort := "", ward := "Phuong A", wardShort := "A"
    wardType := "phuong", provinceCode := "01", wardCode := "001"
    lat := 0, lon := 0, areaKm2 := 1 }

/-- A ward in province `X`, geographically at `10,10`. -/
def wardB : Ward :=
  { province := "Tinh X", provinceShort := "X", ward := "Phuong B"
    wardShort := "B", wardType := "phuong", provinceCode := "02"
    wardCode := "002", lat := 10, lon := 10, areaKm2 := 1 }

/-- Conversion row mapping old province `X` (district `D1`) to `A`. -/
def convRow1 : ConvRow :=
  { provinceCode := "P1", districtCode := "D1", provinceShort := "X"
    newProvince := "Tinh Alpha", newProvinceShort := "A"
    isMergedProvince := "False" }

/-- Conversion row mapping old province `X` (district `D2`) to `B`. -/
def convRow2 : ConvRow :=
  { provinceCode := "P1", districtCode := "D2", provinceShort := "X"
    newProvince := "Tinh Beta", newProvinceShort := "B"
    isMergedProvince := "False" }

/-- A legacy CSV row matching the `districtD5` fixture. -/
def rowA : DistrictRow :=
  { provinceCode := "P01", province := "Tinh P", provinceShort := "P"
    districtCode := "D05", district := "Huyen D5", districtShort := "D5"
    districtType := "huyen", districtLat := "10", districtLon := "106"
    districtBounds := "1,2 – 3,4" }

/-- A sample alias entry with a changed province. -/
def aliasEntryS : AliasEntry :=
  { oldProvince := "OldP", oldDistrict := "Huyen D5"
    oldDistrictShort := "D5", oldDistrictType := "huyen"
    newProvince := "NewP", provinceChanged := true
    lat := 10, lon := 106, bounds := none }

/-- A facility record before enrichment. -/
def hospW : Hospital :=
  { name := "BV Test", district := "D", city := "C", address := "Addr"
    mapsUrl := "url", oldDistrict := none, oldProvince := none
    newWard := none, newProvince := none, aliases := none }

/-- A sample environment whose coordinate extraction always succeeds. -/
def envW : Env :=
  { dist := sampleDist, ec := fun _ => some (10, 106)
    oldDistricts := [districtD5], aliasData := [], oldToNew := []
    newWards := [wardB] }

/-- A sample environment whose coordinate extraction always fails. -/
def envN : Env :=
  { dist := sampleDist, ec := fun _ => none
    oldDistricts := [districtD5], aliasData := [], oldToNew := []
    newWards := [wardB] }

/-! ### Properties of the strict-improvement running-minimum scan -/

theorem nearestScan_from {α : Type} (f : α → ℚ) (xs : List α) :
    ∀ b : α, xs.foldl (better f) (some (b, f b)) =
      some (selectFirst f b xs, f (selectFirst f b xs)) := by
  induction xs with
  | nil => intro b; rfl
  | cons x xs ih =>
    intro b
    by_cases h : f x < f b
    · simp only [List.foldl_cons, better, selectFirst, if_pos h]
      exact ih x
    · simp only [List.foldl_cons, better, selectFirst, if_neg h]
      exact ih b

theorem nearestScan_cons {α : Type} (f : α → ℚ) (x : α) (xs : List α) :
    nearestScan f (x :: xs) =
      some (selectFirst f x xs, f (selectFirst f x xs)) := by
  simp only [nearestScan, List.foldl_cons, better]
  exact nearestScan_from f xs x

theorem selectFirst_mem {α : Type} (f : α → ℚ) (xs : List α) :
    ∀ b : α, selectFirst f b xs ∈ b :: xs := by
  induction xs with
  | nil => intro b; simp [selectFirst]
  | cons x xs ih =>
    intro b
    by_cases h : f x < f b
    · simp only [selectFirst, if_pos h]
      rcases List.mem_cons.mp (ih x) with h1 | h1
      · rw [h1]; exact List.mem_cons_of_mem _ (List.mem_cons_self x xs)
      · exact List.mem_cons_of_mem _ (List.mem_cons_of_mem _ h1)
    · simp only [selectFirst, if_neg h]
      rcases List.mem_cons.mp (ih b) with h1 | h1
      · rw [h1]; exact List.mem_cons_self b (x :: xs)
      · exact List.mem_cons_of_mem _ (List.mem_cons_of_mem _ h1)

theorem selectFirst_le {α : Type} (f : α → ℚ) (xs : List α) :
    ∀ b : α, ∀ e ∈ b :: xs, f (selectFirst f b xs) ≤ f e := by
  induction xs with
  | nil =>
    intro b e he
    rcases List.mem_cons.mp he with rfl | h1
    · simp [selectFirst]
    · simp at h1
  | cons x xs ih =>
    intro b e he
    by_cases h : f x < f b
    · simp only [selectFirst, if_pos h]
      rcases List.mem_cons.mp he with rfl | he'
      · exact le_trans (ih x x (List.mem_cons_self x xs)) (le_of_lt h)
      · exact ih x e he'
    · simp only [selectFirst, if_neg h]
      rcases List.mem_cons.mp he with rfl | he'
      · exact ih e e (List.mem_cons_self e xs)
      · rcases List.mem_cons.mp he' with rfl | he''
        · exact le_trans (ih b b (List.mem_cons_self b xs)) (not_lt.mp h)
        · exact ih b e (List.mem_cons_of_mem _ he'')

theorem selectFirst_split {α : Type} (f : α → ℚ) (xs : List α) :
    ∀ b : α, ∃ l1 l2, b :: xs = l1 ++ selectFirst f b xs :: l2 ∧
      (∀ e ∈ l1, f (selectFirst f b xs) < f e) ∧
      (∀ e ∈ l2, f (selectFirst f b xs) ≤ f e) := by
  induction xs with
  | nil => intro b; exact ⟨[], [], rfl, by simp, by simp⟩
  | cons x xs ih =>
    intro b
    by_cases h : f x < f b
    · obtain ⟨l1, l2, heq, hlt, hle⟩ := ih x
      refine ⟨b :: l1, l2, ?_, ?_, ?_⟩
      · simp only [selectFirst, if_pos h]
        rw [List.cons_append, ← heq]
      · intro e he
        simp only [selectFirst, if_pos h]
        rcases List.mem_cons.mp he with rfl | he'
        · exact lt_of_le_of_lt (selectFirst_le f xs x x (List.mem_cons_self x xs)) h
        · exact hlt e he'
      · intro e he
        simp only [selectFirst, if_pos h]
        exact hle e he
    · obtain ⟨l1, l2, heq, hlt, hle⟩ := ih b
      cases l1 with
      | nil =>
        simp only [List.nil_append, List.cons.injEq] at heq
        obtain ⟨hb, hl2⟩ := heq
        refine ⟨[], x :: xs, ?_, by simp, ?_⟩
        · simp only [selectFirst, if_neg h, List.nil_append]
          rw [← hb]
        · intro e he
          simp only [selectFirst, if_neg h]
          rw [← hb]
          rcases List.mem_cons.mp he with rfl | he'
          · exact not_lt.mp h
          · rw [hl2] at he'
            have h2 := hle e he'
            rw [← hb] at h2
            exact h2
      | cons b' l1' =>
        simp only [List.cons_append, List.cons.injEq] at heq
        obtain ⟨hb, hxs⟩ := heq
        refine ⟨b :: x :: l1', l2, ?_, ?_, ?_⟩
        · simp only [selectFirst, if_neg h, List.cons_append]
          rw [← hxs]
        · intro e he
          simp only [selectFirst, if_neg h]
          have hbmem : f (selectFirst f b xs) < f b := by
            have h3 := hlt b' (List.mem_cons_self b' l1')
            rw [← hb] at h3
            exact h3
          rcases List.mem_cons.mp he with rfl | he'
          · exact hbmem
          · rcases List.mem_cons.mp he' with rfl | he''
            · exact lt_of_lt_of_le hbmem (not_lt.mp h)
            · exact hlt e (List.mem_cons_of_mem _ he'')
        · intro e he
          simp only [selectFirst, if_neg h]
          exact hle e he

/-! ### The containment pass and the fallback pass as filtered scans -/

theorem containFold_eq (dist : DistFn) (la lo : ℚ) (ds : List OldDistrict) :
    ∀ acc, ds.foldl (containStep dist la lo) acc =
      (ds.filter (containsCoord la lo)).foldl
        (better (oldDistance dist la lo)) acc := by
  induction ds with
  | nil => intro acc; rfl
  | cons d ds ih =>
    intro acc
    by_cases h : containsCoord la lo d = true
    · simp only [List.foldl_cons, List.filter_cons, h, if_pos, containStep]
      exact ih _
    · have hb : containsCoord la lo d = false := by
        revert h; cases containsCoord la lo d <;> simp
      simp only [List.foldl_cons, List.filter_cons, hb, containStep]
      simp only [Bool.false_eq_true, if_false]
      exact ih acc

theorem fallbackFold_eq (dist : DistFn) (la lo : ℚ) (ds : List OldDistrict) :
    ∀ acc, (acc = none ∨ ∃ b, acc = some (b, oldDistance dist la lo b) ∧
        oldDistance dist la lo b < 15) →
      ds.foldl (fallbackStep dist la lo) acc =
        (ds.filter (fun e => decide (oldDistance dist la lo e < 15))).foldl
          (better (oldDistance dist la lo)) acc := by
  induction ds with
  | nil => intro acc _; rfl
  | cons d ds ih =>
    intro acc hinv
    by_cases hd : oldDistance dist la lo d < 15
    · have hstep : fallbackStep dist la lo acc d =
          better (oldDistance dist la lo) acc d := by
        rcases hinv with rfl | ⟨b, rfl, hb⟩
        · simp [fallbackStep, better, hd]
        · by_cases h2 : oldDistance dist la lo d < oldDistance dist la lo b
          · simp [fallbackStep, better, hd, h2]
          · simp [fallbackStep, better, hd, h2]
      have hinv2 : better (oldDistance dist la lo) acc d = none ∨
          ∃ b, better (oldDistance dist la lo) acc d =
            some (b, oldDistance dist la lo b) ∧ oldDistance dist la lo b < 15 := by
        rcases hinv with rfl | ⟨b, rfl, hb⟩
        · exact Or.inr ⟨d, rfl, hd⟩
        · by_cases h2 : oldDistance dist la lo d < oldDistance dist la lo b
          · exact Or.inr ⟨d, by simp [better, h2], hd⟩
          · exact Or.inr ⟨b, by simp [better, h2], hb⟩
      simp only [List.foldl_cons, List.filter_cons, decide_eq_true hd, if_pos]
      rw [hstep]
      exact ih _ hinv2
    · have hstep : fallbackStep dist la lo acc d = acc := by
        rcases hinv with rfl | ⟨b, rfl, hb⟩
        · simp [fallbackStep, hd]
        · simp [fallbackStep, hd]
      have hfd : decide (oldDistance dist la lo d < 15) = false := by
        simpa using hd
      simp only [List.foldl_cons, List.filter_cons, hfd]
      simp only [Bool.false_eq_true, if_false]
      rw [hstep]
      exact ih acc hinv

theorem foldl_better_cons {α : Type} (f : α → ℚ) (x : α) (xs : List α) :
    (x :: xs).foldl (better f) none =
      some (selectFirst f x xs, f (selectFirst f x xs)) :=
  nearestScan_cons f x xs

/-- Closed form of the old-unit locator: first minimizer over the
box-containing districts, else first minimizer over the districts within
15 km, else none. -/
theorem locateOld_eq (dist : DistFn) (la lo : ℚ) (ds : List OldDistrict) :
    locateOldUnitWith dist ds la lo =
      match ds.filter (containsCoord la lo) with
      | c :: cs => some (selectFirst (oldDistance dist la lo) c cs)
      | [] =>
        match ds.filter (fun e => decide (oldDistance dist la lo e < 15)) with
        | c :: cs => some (selectFirst (oldDistance dist la lo) c cs)
        | [] => none := by
  unfold locateOldUnitWith
  rw [containFold_eq dist la lo ds none]
  cases hc : ds.filter (containsCoord la lo) with
  | cons c cs =>
    rw [foldl_better_cons]
  | nil =>
    rw [fallbackFold_eq dist la lo ds none (Or.inl rfl)]
    cases hf : ds.filter (fun e => decide (oldDistance dist la lo e < 15)) with
    | cons c cs => rw [foldl_better_cons]; rfl
    | nil => rfl

/-- Closed form of the new-unit locator: first minimizer over the scope. -/
theorem locateNew_eq (dist : DistFn) (ws : List Ward) (cp : Option String)
    (la lo : ℚ) :
    locateNewUnitWith dist ws cp la lo =
      match newUnitScope ws cp with
      | c :: cs => some (selectFirst (wardDistance dist la lo) c cs)
      | [] => none := by
  unfold locateNewUnitWith nearestScan
  cases hs : newUnitScope ws cp with
  | cons c cs => rw [foldl_better_cons]; rfl
  | nil => rfl

/-! ### Claim theorems -/

/-- C1: for every coordinate and loaded legacy-district collection,
`locateOldUnit` returns a box-containing district of minimum centroid
distance when at least one bounding box contains the coordinate; otherwise
a district of minimum centroid distance over all districts, but only when
that minimum is strictly less than 15 km; otherwise no match.  The distance
function is abstract, so the statement holds in particular for the
source's haversine on a sphere of radius 6371 km. -/
theorem claim_locateOldUnit (dist : DistFn) (ds : List OldDistrict) (la lo : ℚ) :
    (ds.filter (containsCoord la lo) ≠ [] →
      ∃ d, locateOldUnitWith dist ds la lo = some d ∧
        d ∈ ds.filter (containsCoord la lo) ∧
        ∀ e ∈ ds.filter (containsCoord la lo),
          oldDistance dist la lo d ≤ oldDistance dist la lo e) ∧
    (ds.filter (containsCoord la lo) = [] →
      (∃ e ∈ ds, oldDistance dist la lo e < 15) →
      ∃ d, locateOldUnitWith dist ds la lo = some d ∧ d ∈ ds ∧
        oldDistance dist la lo d < 15 ∧
        ∀ e ∈ ds, oldDistance dist la lo d ≤ oldDistance dist la lo e) ∧
    (ds.filter (containsCoord la lo) = [] →
      (∀ e ∈ ds, ¬ oldDistance dist la lo e < 15) →
      locateOldUnitWith dist ds la lo = none) := by
  refine ⟨?_, ?_, ?_⟩
  · intro hne
    cases hc : ds.filter (containsCoord la lo) with
    | nil => exact absurd hc hne
    | cons c cs =>
      refine ⟨selectFirst (oldDistance dist la lo) c cs, ?_, ?_, ?_⟩
      · rw [locateOld_eq, hc]
      · exact selectFirst_mem _ cs c
      · exact selectFirst_le _ cs c
  · intro hc hex
    obtain ⟨e, he, hlt⟩ := hex
    have hmem : e ∈ ds.filter (fun x => decide (oldDistance dist la lo x < 15)) :=
      List.mem_filter.mpr ⟨he, by simpa using hlt⟩
    cases hf : ds.filter (fun x => decide (oldDistance dist la lo x < 15)) with
    | nil => rw [hf] at hmem; simp at hmem
    | cons c cs =>
      have hsmem : selectFirst (oldDistance dist la lo) c cs ∈
          ds.filter (fun x => decide (oldDistance dist la lo x < 15)) := by
        rw [hf]; exact selectFirst_mem _ cs c
      have hsds := (List.mem_filter.mp hsmem).1
      have hs15 : oldDistance dist la lo (selectFirst (oldDistance dist la lo) c cs) < 15 := by
        have h2 := (List.mem_filter.mp hsmem).2
        simpa using h2
      refine ⟨selectFirst (oldDistance dist la lo) c cs, ?_, hsds, hs15, ?_⟩
      · rw [locateOld_eq, hc, hf]
      · intro x hx
        by_cases hx15 : oldDistance dist la lo x < 15
        · have hxf : x ∈ ds.filter (fun y => decide (oldDistance dist la lo y < 15)) :=
            List.mem_filter.mpr ⟨hx, by simpa using hx15⟩
          rw [hf] at hxf
          exact selectFirst_le _ cs c x hxf
        · exact le_of_lt (lt_of_lt_of_le hs15 (not_lt.mp hx15))
  · intro hc hall
    have hnil : ds.filter (fun x => decide (oldDistance dist la lo x < 15)) = [] := by
      rw [List.filter_eq_nil_iff]
      intro a ha
      simpa using hall a ha
    rw [locateOld_eq, hc, hnil]

/-- Witness for C1: the planted fixture box contains the coordinate and is
selected; with only the far, box-less district, the fallback rejects the
≥ 15 km minimum and reports no match. -/
theorem claim_locateOldUnit_witness :
    ([districtD5].filter (containsCoord 10 106) ≠ [] ∧
      ∃ d, locateOldUnitWith sampleDist [districtD5] 10 106 = some d ∧
        d ∈ [districtD5].filter (containsCoord 10 106) ∧
        ∀ e ∈ [districtD5].filter (containsCoord 10 106),
          oldDistance sampleDist 10 106 d ≤ oldDistance sampleDist 10 106 e) ∧
    ([districtFar].filter (containsCoord 10 106) = [] ∧
      (∀ e ∈ [districtFar], ¬ oldDistance sampleDist 10 106 e < 15) ∧
      locateOldUnitWith sampleDist [districtFar] 10 106 = none) :=
  ⟨⟨by decide, (claim_locateOldUnit sampleDist [districtD5] 10 106).1 (by decide)⟩,
   ⟨by decide, by decide,
    (claim_locateOldUnit sampleDist [districtFar] 10 106).2.2 (by decide) (by decide)⟩⟩

theorem locateNew_isSome (dist : DistFn) (ws : List Ward) (cp : Option String)
    (la lo : ℚ) (hne : ws ≠ []) :
    (locateNewUnitWith dist ws cp la lo).isSome = true := by
  have hsc : newUnitScope ws cp ≠ [] := by
    cases cp with
    | none => exact hne
    | some p =>
      simp only [newUnitScope]
      by_cases hcond : p ≠ "" ∧ wardBucket ws p ≠ []
      · rw [if_pos hcond]; exact hcond.2
      · rw [if_neg hcond]; exact hne
  rw [locateNew_eq]
  cases hs : newUnitScope ws cp with
  | nil => exact absurd hs hsc
  | cons c cs => rfl

/-- C2 (amended): when the candidate province name is non-empty and its
ward bucket is non-empty, the locator searches only that bucket and never
returns a ward outside it; with an absent candidate province, or an empty
bucket, it searches the full ward collection; within the search scope it
returns a ward of minimum centroid distance with no distance cutoff.  (As
literally stated the claim fails for the empty-string candidate province,
which is falsy in the source; see the counterexample.) -/
theorem claim_locateNewUnit_scope (dist : DistFn) (ws : List Ward) (la lo : ℚ) :
    (∀ p : String, p ≠ "" → wardBucket ws p ≠ [] →
      newUnitScope ws (some p) = wardBucket ws p ∧
      ∀ w, locateNewUnitWith dist ws (some p) la lo = some w →
        w ∈ wardBucket ws p) ∧
    (∀ p : String, wardBucket ws p = [] → newUnitScope ws (some p) = ws) ∧
    newUnitScope ws none = ws ∧
    (∀ cp, newUnitScope ws cp ≠ [] →
      ∃ w, locateNewUnitWith dist ws cp la lo = some w ∧
        w ∈ newUnitScope ws cp ∧
        ∀ e ∈ newUnitScope ws cp,
          wardDistance dist la lo w ≤ wardDistance dist la lo e) := by
  refine ⟨?_, ?_, rfl, ?_⟩
  · intro p hp hb
    have hscope : newUnitScope ws (some p) = wardBucket ws p := by
      simp only [newUnitScope]
      rw [if_pos ⟨hp, hb⟩]
    refine ⟨hscope, ?_⟩
    intro w hw
    rw [locateNew_eq, hscope] at hw
    cases hbk : wardBucket ws p with
    | nil => exact absurd hbk hb
    | cons c cs =>
      rw [hbk] at hw
      simp only [Option.some.injEq] at hw
      rw [← hw]
      exact selectFirst_mem _ cs c
  · intro p hbe
    simp only [newUnitScope]
    rw [if_neg]
    intro hcond
    exact hcond.2 hbe
  · intro cp hne
    cases hs : newUnitScope ws cp with
    | nil => exact absurd hs hne
    | cons c cs =>
      refine ⟨selectFirst (wardDistance dist la lo) c cs, ?_, ?_, ?_⟩
      · rw [locateNew_eq, hs]
      · exact selectFirst_mem _ cs c
      · exact selectFirst_le _ cs c

/-- Witness for the amended C2: a non-empty bucket for province `X` is the
scope, and the returned ward lies in it; the minimum is attained with no
cutoff. -/
theorem claim_locateNewUnit_scope_witness :
    (("X" : String) ≠ "" ∧ wardBucket [wardA, wardB] "X" ≠ [] ∧
      (newUnitScope [wardA, wardB] (some "X") = wardBucket [wardA, wardB] "X" ∧
        ∀ w, locateNewUnitWith sampleDist [wardA, wardB] (some "X") 10 10 = some w →
          w ∈ wardBucket [wardA, wardB] "X")) ∧
    (newUnitScope [wardA, wardB] (some "Z") ≠ [] ∧
      ∃ w, locateNewUnitWith sampleDist [wardA, wardB] (some "Z") 10 10 = some w ∧
        w ∈ newUnitScope [wardA, wardB] (some "Z") ∧
        ∀ e ∈ newUnitScope [wardA, wardB] (some "Z"),
          wardDistance sampleDist 10 10 w ≤ wardDistance sampleDist 10 10 e) :=
  ⟨⟨by decide, by decide,
    (claim_locateNewUnit_scope sampleDist [wardA, wardB] 10 10).1 "X"
      (by decide) (by decide)⟩,
   ⟨by decide,
    (claim_locateNewUnit_scope sampleDist [wardA, wardB] 10 10).2.2.2
      (some "Z") (by decide)⟩⟩

/-- Counterexample to C2 as literally stated: the candidate province `""`
has an existing, non-empty ward bucket (`wardA`), yet the locator searches
the full collection and returns `wardB`, a geographically closer ward
outside that bucket — the source's `newProvShort &&` test treats the
empty string as falsy. -/
theorem claim_locateNewUnit_scope_cx :
    wardBucket [wardA, wardB] "" ≠ [] ∧
    locateNewUnitWith sampleDist [wardA, wardB] (some "") 10 10 = some wardB ∧
    wardB ∉ wardBucket [wardA, wardB] "" := by decide

/-- C4: with a non-empty loaded ward collection the new-unit locator
always resolves to some ward (the no-ward branch is unreachable), so a
record whose map link yields a coordinate receives a `newWard` value. -/
theorem claim_newUnit_total (dist : DistFn) (ws : List Ward) (cp : Option String)
    (la lo : ℚ) (env : Env) (h : Hospital) (c : ℚ × ℚ) :
    (ws ≠ [] → (locateNewUnitWith dist ws cp la lo).isSome = true) ∧
    (env.ec h.mapsUrl = some c → env.newWards ≠ [] →
      ((enrichRecord env h).1.newWard).isSome = true) := by
  constructor
  · intro hne
    exact locateNew_isSome dist ws cp la lo hne
  · intro hec hwne
    obtain ⟨la2, lo2⟩ := c
    have hs := locateNew_isSome env.dist env.newWards
      (Option.map (fun d => remapProvince env.oldToNew d.provinceShort)
        (locateOldUnitWith env.dist env.oldDistricts la2 lo2)) la2 lo2 hwne
    cases hbw : locateNewUnitWith env.dist env.newWards
        (Option.map (fun d => remapProvince env.oldToNew d.provinceShort)
          (locateOldUnitWith env.dist env.oldDistricts la2 lo2)) la2 lo2 with
    | none => rw [hbw] at hs; simp at hs
    | some w =>
      simp only [enrichRecord, hec]
      rw [hbw]
      cases locateOldUnitWith env.dist env.oldDistricts la2 lo2 <;> simp

/-- Witness for C4: in the sample environment the record gets a ward. -/
theorem claim_newUnit_total_witness :
    (([wardB] : List Ward) ≠ [] ∧
      (locateNewUnitWith sampleDist [wardB] (some "X") 10 106).isSome = true) ∧
    (envW.ec hospW.mapsUrl = some ((10 : ℚ), (106 : ℚ)) ∧
      envW.newWards ≠ [] ∧
      ((enrichRecord envW hospW).1.newWard).isSome = true) :=
  ⟨⟨by decide,
    (claim_newUnit_total sampleDist [wardB] (some "X") 10 106 envW hospW
      (10, 106)).1 (by decide)⟩,
   ⟨rfl, by decide,
    (claim_newUnit_total sampleDist [wardB] (some "X") 10 106 envW hospW
      (10, 106)).2 rfl (by decide)⟩⟩

/-- C10: whenever several candidates attain the minimum distance, each
locator pass returns the candidate occurring first in the loaded reference
order — every earlier candidate in the pass's scope is at strictly greater
distance (the strict `<` comparison never replaces an equal-distance
incumbent) and every later one at greater-or-equal distance. -/
theorem claim_tieBreak (dist : DistFn) (ds : List OldDistrict) (ws : List Ward)
    (cp : Option String) (la lo : ℚ) :
    (∀ d, ds.filter (containsCoord la lo) ≠ [] →
      locateOldUnitWith dist ds la lo = some d →
      ∃ l1 l2, ds.filter (containsCoord la lo) = l1 ++ d :: l2 ∧
        (∀ e ∈ l1, oldDistance dist la lo d < oldDistance dist la lo e) ∧
        (∀ e ∈ l2, oldDistance dist la lo d ≤ oldDistance dist la lo e)) ∧
    (∀ d, ds.filter (containsCoord la lo) = [] →
      locateOldUnitWith dist ds la lo = some d →
      ∃ l1 l2, ds.filter (fun e => decide (oldDistance dist la lo e < 15)) =
          l1 ++ d :: l2 ∧
        (∀ e ∈ l1, oldDistance dist la lo d < oldDistance dist la lo e) ∧
        (∀ e ∈ l2, oldDistance dist la lo d ≤ oldDistance dist la lo e)) ∧
    (∀ w, locateNewUnitWith dist ws cp la lo = some w →
      ∃ l1 l2, newUnitScope ws cp = l1 ++ w :: l2 ∧
        (∀ e ∈ l1, wardDistance dist la lo w < wardDistance dist la lo e) ∧
        (∀ e ∈ l2, wardDistance dist la lo w ≤ wardDistance dist la lo e)) := by
  refine ⟨?_, ?_, ?_⟩
  · intro d hne hloc
    rw [locateOld_eq] at hloc
    cases hc : ds.filter (containsCoord la lo) with
    | nil => exact absurd hc hne
    | cons c cs =>
      rw [hc] at hloc
      simp only [Option.some.injEq] at hloc
      rw [← hloc]
      exact selectFirst_split _ cs c
  · intro d hc hloc
    rw [locateOld_eq, hc] at hloc
    cases hf : ds.filter (fun e => decide (oldDistance dist la lo e < 15)) with
    | nil => rw [hf] at hloc; simp at hloc
    | cons c cs =>
      rw [hf] at hloc
      simp only [Option.some.injEq] at hloc
      rw [← hloc]
      exact selectFirst_split _ cs c
  · intro w hloc
    rw [locateNew_eq] at hloc
    cases hs : newUnitScope ws cp with
    | nil => rw [hs] at hloc; simp at hloc
    | cons c cs =>
      rw [hs] at hloc
      simp only [Option.some.injEq] at hloc
      rw [← hloc]
      exact selectFirst_split _ cs c

/-- Witness for C10 at concrete inputs exercising the containment pass,
the fallback pass and the ward pass. -/
theorem claim_tieBreak_witness :
    ([districtD5].filter (containsCoord 10 106) ≠ [] ∧
      locateOldUnitWith sampleDist [districtD5] 10 106 = some districtD5 ∧
      ∃ l1 l2, [districtD5].filter (containsCoord 10 106) = l1 ++ districtD5 :: l2 ∧
        (∀ e ∈ l1, oldDistance sampleDist 10 106 districtD5 < oldDistance sampleDist 10 106 e) ∧
        (∀ e ∈ l2, oldDistance sampleDist 10 106 districtD5 ≤ oldDistance sampleDist 10 106 e)) ∧
    ([districtD2].filter (containsCoord 10 106) = [] ∧
      locateOldUnitWith sampleDist [districtD2] 10 106 = some districtD2 ∧
      ∃ l1 l2, [districtD2].filter (fun e => decide (oldDistance sampleDist 10 106 e < 15)) =
          l1 ++ districtD2 :: l2 ∧
        (∀ e ∈ l1, oldDistance sampleDist 10 106 districtD2 < oldDistance sampleDist 10 106 e) ∧
        (∀ e ∈ l2, oldDistance sampleDist 10 106 districtD2 ≤ oldDistance sampleDist 10 106 e)) ∧
    (locateNewUnitWith sampleDist [wardA, wardB] (some "X") 10 10 = some wardB ∧
      ∃ l1 l2, newUnitScope [wardA, wardB] (some "X") = l1 ++ wardB :: l2 ∧
        (∀ e ∈ l1, wardDistance sampleDist 10 10 wardB < wardDistance sampleDist 10 10 e) ∧
        (∀ e ∈ l2, wardDistance sampleDist 10 10 wardB ≤ wardDistance sampleDist 10 10 e)) :=
  ⟨⟨by decide, by decide,
    (claim_tieBreak sampleDist [districtD5] [wardA, wardB] (some "X") 10 106).1
      districtD5 (by decide) (by decide)⟩,
   ⟨by decide, by decide,
    (claim_tieBreak sampleDist [districtD2] [wardA, wardB] (some "X") 10 106).2.1
      districtD2 (by decide) (by decide)⟩,
   ⟨by decide,
    (claim_tieBreak sampleDist [districtD2] [wardA, wardB] (some "X") 10 10).2.2
      wardB (by decide)⟩⟩

/-! ### Lookup characterizations of the first-seen-wins loaders -/

theorem alookup_append {β : Type} (k : String) (m1 m2 : List (String × β)) :
    alookup k (m1 ++ m2) =
      match alookup k m1 with
      | some v => some v
      | none => alookup k m2 := by
  induction m1 with
  | nil => rfl
  | cons e m1 ih =>
    obtain ⟨k', v⟩ := e
    by_cases h : k' = k
    · simp [alookup, h]
    · simp only [List.cons_append, alookup, if_neg h]
      exact ih

theorem insertAbsent_lookup {α β : Type} (key : α → String) (val : α → β)
    (rows : List α) :
    ∀ (m : List (String × β)) (k : String),
      alookup k (rows.foldl
        (fun m r => if (alookup (key r) m).isSome then m
                    else m ++ [(key r, val r)]) m) =
      match alookup k m with
      | some v => some v
      | none => (rows.find? (fun r => key r == k)).map val := by
  induction rows with
  | nil =>
    intro m k
    rw [List.foldl_nil]
    cases h : alookup k m <;> rfl
  | cons r rows ih =>
    intro m k
    rw [List.foldl_cons]
    by_cases hm : (alookup (key r) m).isSome
    · rw [if_pos hm, ih]
      by_cases hkey : key r = k
      · have hk : (alookup k m).isSome := by rw [← hkey]; exact hm
        obtain ⟨v, hv⟩ := Option.isSome_iff_exists.mp hk
        simp [hv]
      · have hfind : List.find? (fun r2 => key r2 == k) (r :: rows) =
            List.find? (fun r2 => key r2 == k) rows := by
          rw [List.find?_cons_of_neg]
          simp [hkey]
        rw [hfind]
    · rw [if_neg hm, ih]
      have hmgen : alookup (key r) m = none :=
        Option.not_isSome_iff_eq_none.mp hm
      by_cases hkey : key r = k
      · have hmk : alookup k m = none := by rw [← hkey]; exact hmgen
        have hfind : List.find? (fun r2 => key r2 == k) (r :: rows) =
            some r := by
          rw [List.find?_cons_of_pos]
          simp [hkey]
        simp [alookup_append, hmk, hfind, alookup, hkey]
      · have hmk2 : alookup k (m ++ [(key r, val r)]) = alookup k m := by
          rw [alookup_append]
          have hsingle : alookup k [(key r, val r)] = none := by
            simp [alookup, hkey]
          rw [hsingle]
          cases alookup k m <;> rfl
        have hfind : List.find? (fun r2 => key r2 == k) (r :: rows) =
            List.find? (fun r2 => key r2 == k) rows := by
          rw [List.find?_cons_of_neg]
          simp [hkey]
        rw [hmk2, hfind]

theorem loadDistricts_lookup (num : NumParser) (rows : List DistrictRow)
    (k : String) :
    alookup k (loadDistricts num rows) =
      (rows.find? (fun r => rowKeyD r == k)).map (toStored num) :=
  insertAbsent_lookup rowKeyD (toStored num) rows [] k

theorem loadConv_lookup (rows : List ConvRow) (k : String) :
    alookup k (loadConv rows) =
      (rows.find? (fun r => rowKeyC r == k)).map toConvVal :=
  insertAbsent_lookup rowKeyC toConvVal rows [] k

/-- C5: the district and conversion loaders are first-seen-wins — for every
key, the stored record is the image of the earliest row in file order whose
`provinceCode|districtCode` key matches, and later duplicate rows are
ignored. -/
theorem claim_load_firstSeenWins (num : NumParser) (drows : List DistrictRow)
    (crows : List ConvRow) (k : String) :
    alookup k (loadDistricts num drows) =
      (drows.find? (fun r => rowKeyD r == k)).map (toStored num) ∧
    alookup k (loadConv crows) =
      (crows.find? (fun r => rowKeyC r == k)).map toConvVal :=
  ⟨loadDistricts_lookup num drows k, loadConv_lookup crows k⟩

theorem parseBounds_minmax (num : NumParser) (s : String) :
    parseBounds num s = none ∨
      ∃ b, parseBounds num s = some b ∧
        b.minLat ≤ b.maxLat ∧ b.minLon ≤ b.maxLon := by
  cases hp : parseBounds num s with
  | none => exact Or.inl rfl
  | some b =>
    right
    refine ⟨b, rfl, ?_⟩
    unfold parseBounds at hp
    split at hp
    · exact absurd hp (by simp)
    · split at hp
      · dsimp only at hp
        split at hp
        · simp only [Option.some.injEq] at hp
          rw [← hp]
          exact ⟨min_le_max, min_le_max⟩
        · exact absurd hp (by simp)
      · exact absurd hp (by simp)

/-- C9: `parseBounds` yields no box or a box with `minLat ≤ maxLat` and
`minLon ≤ maxLon`; every stored district record's box satisfies the
invariant; and a malformed bounds string never prevents a row from being
stored. -/
theorem claim_boundsInvariant (num : NumParser) (s : String) :
    (parseBounds num s = none ∨
      ∃ b, parseBounds num s = some b ∧
        b.minLat ≤ b.maxLat ∧ b.minLon ≤ b.maxLon) ∧
    (∀ (rows : List DistrictRow) (k : String) (r : StoredDistrict) (b : Bounds),
      alookup k (loadDistricts num rows) = some r → r.bounds = some b →
      b.minLat ≤ b.maxLat ∧ b.minLon ≤ b.maxLon) ∧
    (∀ (rows : List DistrictRow) (r : DistrictRow), r ∈ rows →
      (alookup (rowKeyD r) (loadDistricts num rows)).isSome = true) := by
  refine ⟨parseBounds_minmax num s, ?_, ?_⟩
  · intro rows k r b hlook hb
    rw [loadDistricts_lookup] at hlook
    cases hf : rows.find? (fun r2 => rowKeyD r2 == k) with
    | none =>
      rw [hf] at hlook
      exact absurd hlook (by simp)
    | some r2 =>
      rw [hf] at hlook
      simp only [Option.map_some', Option.some.injEq] at hlook
      have hbnd : r.bounds = parseBounds num r2.districtBounds := by
        rw [← hlook]
        rfl
      rw [hbnd] at hb
      rcases parseBounds_minmax num r2.districtBounds with hnone | ⟨b2, hsome, h1, h2⟩
      · rw [hnone] at hb
        exact absurd hb (by simp)
      · rw [hsome] at hb
        simp only [Option.some.injEq] at hb
        subst hb
        exact ⟨h1, h2⟩
  · intro rows r hr
    rw [loadDistricts_lookup]
    have hfs : (rows.find? (fun r2 => rowKeyD r2 == rowKeyD r)).isSome = true := by
      rw [List.find?_isSome]
      exact ⟨r, hr, by simp⟩
    simpa using hfs

/-- Witness for C9 at the concrete sample row: the stored record's parsed
box satisfies the invariant and the row is stored despite any bounds
outcome. -/
theorem claim_boundsInvariant_witness :
    (alookup (rowKeyD rowA) (loadDistricts sampleNum [rowA]) =
        some (toStored sampleNum rowA) ∧
      (toStored sampleNum rowA).bounds = some ⟨1, 3, 2, 4⟩ ∧
      ((⟨1, 3, 2, 4⟩ : Bounds).minLat ≤ (⟨1, 3, 2, 4⟩ : Bounds).maxLat ∧
        (⟨1, 3, 2, 4⟩ : Bounds).minLon ≤ (⟨1, 3, 2, 4⟩ : Bounds).maxLon)) ∧
    (rowA ∈ [rowA] ∧
      (alookup (rowKeyD rowA) (loadDistricts sampleNum [rowA])).isSome = true) :=
  ⟨⟨by decide, by decide,
    (claim_boundsInvariant sampleNum "1,2 – 3,4").2.1 [rowA] (rowKeyD rowA)
      (toStored sampleNum rowA) ⟨1, 3, 2, 4⟩ (by decide) (by decide)⟩,
   ⟨by decide,
    (claim_boundsInvariant sampleNum "1,2 – 3,4").2.2 [rowA] rowA (by decide)⟩⟩

/-! ### The province-level remap used for the ward search scope -/

theorem buildOldToNew_lookup (rows : List ConvRow) :
    ∀ (m : List (String × String)) (k : String),
      alookup k (rows.foldl oldToNewStep m) =
      match alookup k m with
      | some v => some v
      | none =>
        (rows.find? (fun r2 => (strTrim r2.provinceShort != "") &&
          (strTrim r2.newProvinceShort != "") &&
          (strTrim r2.provinceShort == k))).map
          (fun r2 => strTrim r2.newProvinceShort) := by
  induction rows with
  | nil =>
    intro m k
    rw [List.foldl_nil]
    cases h : alookup k m <;> rfl
  | cons r rows ih =>
    intro m k
    rw [List.foldl_cons, ih]
    by_cases hk : strTrim r.provinceShort = k
    · by_cases hN : (alookup (strTrim r.provinceShort) m).isNone = true
      · have hm : alookup k m = none := by
          rw [← hk]; exact Option.isNone_iff_eq_none.mp hN
        by_cases hA : strTrim r.provinceShort ≠ ""
        · by_cases hB : strTrim r.newProvinceShort ≠ ""
          · have hstep : oldToNewStep m r =
                m ++ [(strTrim r.provinceShort, strTrim r.newProvinceShort)] := by
              simp only [oldToNewStep]
              rw [if_pos ⟨hA, hB, hN⟩]
            have hm2 : alookup k (oldToNewStep m r) =
                some (strTrim r.newProvinceShort) := by
              rw [hstep, alookup_append, hm]
              simp [alookup, hk]
            have hfind : List.find? (fun r2 => (strTrim r2.provinceShort != "") &&
                (strTrim r2.newProvinceShort != "") &&
                (strTrim r2.provinceShort == k)) (r :: rows) = some r := by
              rw [List.find?_cons_of_pos]
              simp only [Bool.and_eq_true, bne_iff_ne, beq_iff_eq]
              exact ⟨⟨hA, hB⟩, hk⟩
            rw [hfind, hm2, hm]
            simp
          · have hBe : strTrim r.newProvinceShort = "" := not_not.mp hB
            have hstep : oldToNewStep m r = m := by
              simp only [oldToNewStep]
              rw [if_neg]
              intro hcond
              exact hcond.2.1 hBe
            have hfind : List.find? (fun r2 => (strTrim r2.provinceShort != "") &&
                (strTrim r2.newProvinceShort != "") &&
                (strTrim r2.provinceShort == k)) (r :: rows) =
                List.find? (fun r2 => (strTrim r2.provinceShort != "") &&
                  (strTrim r2.newProvinceShort != "") &&
                  (strTrim r2.provinceShort == k)) rows := by
              rw [List.find?_cons_of_neg]
              simp [hBe]
            rw [hstep, hfind]
        · have hAe : strTrim r.provinceShort = "" := not_not.mp hA
          have hstep : oldToNewStep m r = m := by
            simp only [oldToNewStep]
            rw [if_neg]
            intro hcond
            exact hcond.1 hAe
          have hfind : List.find? (fun r2 => (strTrim r2.provinceShort != "") &&
              (strTrim r2.newProvinceShort != "") &&
              (strTrim r2.provinceShort == k)) (r :: rows) =
              List.find? (fun r2 => (strTrim r2.provinceShort != "") &&
                (strTrim r2.newProvinceShort != "") &&
                (strTrim r2.provinceShort == k)) rows := by
            rw [List.find?_cons_of_neg]
            simp [hAe]
          rw [hstep, hfind]
      · have hsome : (alookup k m).isSome = true := by
          rw [← hk]
          cases ho : alookup (strTrim r.provinceShort) m with
          | none => rw [ho] at hN; exact absurd rfl hN
          | some v => rfl
        obtain ⟨v, hv⟩ := Option.isSome_iff_exists.mp hsome
        have hstep : oldToNewStep m r = m := by
          simp only [oldToNewStep]
          rw [if_neg]
          intro hcond
          exact hN hcond.2.2
        rw [hstep, hv]
    · have hfind : List.find? (fun r2 => (strTrim r2.provinceShort != "") &&
          (strTrim r2.newProvinceShort != "") &&
          (strTrim r2.provinceShort == k)) (r :: rows) =
          List.find? (fun r2 => (strTrim r2.provinceShort != "") &&
            (strTrim r2.newProvinceShort != "") &&
            (strTrim r2.provinceShort == k)) rows := by
        rw [List.find?_cons_of_neg]
        simp [hk]
      rw [hfind]
      by_cases hcond : strTrim r.provinceShort ≠ "" ∧
          strTrim r.newProvinceShort ≠ "" ∧
          (alookup (strTrim r.provinceShort) m).isNone = true
      · have hstep : oldToNewStep m r =
            m ++ [(strTrim r.provinceShort, strTrim r.newProvinceShort)] := by
          simp only [oldToNewStep]
          rw [if_pos hcond]
        have hm2 : alookup k (oldToNewStep m r) = alookup k m := by
          rw [hstep, alookup_append]
          cases hmm : alookup k m with
          | none => simp [alookup, hk]
          | some v => rfl
        rw [hm2]
      · have hstep : oldToNewStep m r = m := by
          simp only [oldToNewStep]
          rw [if_neg hcond]
        rw [hstep]

/-- C3 (amended): the new-unit search-scope constraint is produced by a
province-level first-seen-wins map built from conversion rows whose
trimmed old and new province short names are non-empty, keyed by the old
province short name; the matched district's province short name is looked
up there, and when no entry exists it is used unchanged.  (As literally
stated — lookup by the district's `(provinceCode, districtCode)` — the
claim fails; see the counterexample.) -/
theorem claim_remapProvince (rows : List ConvRow) (ps : String) :
    remapProvince (buildOldToNew rows) ps =
      match rows.find? (fun r => (strTrim r.provinceShort != "") &&
          (strTrim r.newProvinceShort != "") &&
          (strTrim r.provinceShort == ps)) with
      | some r => strTrim r.newProvinceShort
      | none => ps := by
  unfold remapProvince buildOldToNew
  rw [buildOldToNew_lookup rows [] ps]
  cases hf : rows.find? (fun r => (strTrim r.provinceShort != "") &&
      (strTrim r.newProvinceShort != "") &&
      (strTrim r.provinceShort == ps)) with
  | none => simp [alookup]
  | some r =>
    have hpr := List.find?_some hf
    simp only [Bool.and_eq_true, bne_iff_ne, beq_iff_eq] at hpr
    simp [alookup, hpr.1.2]

/-- Counterexample to C3 as stated: two conversion rows share the old
province short name `X` but map districts `D1` and `D2` of province `P1`
to different successors `A` and `B`.  The district-keyed conversion record
for the matched district `(P1, D2)` names `B`, but the code derives the
search-scope constraint from the province-level map and yields `A`. -/
theorem claim_remapProvince_cx :
    (alookup (districtKey districtD2) (loadConv [convRow1, convRow2])).map
        ConvVal.newProvinceShort = some "B" ∧
    remapProvince (buildOldToNew [convRow1, convRow2])
        districtD2.provinceShort = "A" ∧
    ("A" : String) ≠ "B" := by decide

/-! ### Properties of the alias set builder -/

theorem insertAll_eq (l : List String) :
    ∀ s : Finset String, insertAll l s = s ∪ l.toFinset := by
  induction l with
  | nil => intro s; simp [insertAll]
  | cons a l ih =>
    intro s
    have hstep : insertAll (a :: l) s = insertAll l (insert a s) := rfl
    rw [hstep, ih]
    rw [List.toFinset_cons, Finset.insert_union, Finset.union_insert]

theorem mem_buildAliases (x : String) (om : Option OldDistrict)
    (ad : List (String × AliasEntry)) (ow : Option Ward) :
    x ∈ buildAliases om ad ow ↔
      x ≠ "" ∧ x ∈ aliasCandidates om ad ow := by
  unfold buildAliases
  rw [insertAll_eq]
  simp [Finset.mem_erase, List.mem_toFinset]

/-- C6: for a matched old district and matched new ward the alias set
contains each non-empty name the loop adds (old district long and short
names, old province short name, the pre-reorganization province short name
when the `provinceChanged` flag is set, the successor province short name,
the new ward's long and short names and its province short name); it never
contains the empty string; and it is insertion-order-insensitive — any
permutation of the added names builds the same set. -/
theorem claim_buildAliases (d : OldDistrict) (ad : List (String × AliasEntry))
    (w : Ward) :
    (d.district ≠ "" → d.district ∈ buildAliases (some d) ad (some w)) ∧
    (d.districtShort ≠ "" →
      d.districtShort ∈ buildAliases (some d) ad (some w)) ∧
    (d.provinceShort ≠ "" →
      d.provinceShort ∈ buildAliases (some d) ad (some w)) ∧
    (∀ a, alookup (districtKey d) ad = some a → a.provinceChanged = true →
      a.oldProvince ≠ "" → a.oldProvince ∈ buildAliases (some d) ad (some w)) ∧
    (∀ a, alookup (districtKey d) ad = some a → a.newProvince ≠ "" →
      a.newProvince ∈ buildAliases (some d) ad (some w)) ∧
    (w.ward ≠ "" → w.ward ∈ buildAliases (some d) ad (some w)) ∧
    (w.wardShort ≠ "" → w.wardShort ∈ buildAliases (some d) ad (some w)) ∧
    (w.provinceShort ≠ "" →
      w.provinceShort ∈ buildAliases (some d) ad (some w)) ∧
    "" ∉ buildAliases (some d) ad (some w) ∧
    (∀ (om : Option OldDistrict) (ad2 : List (String × AliasEntry))
        (ow : Option Ward) (l : List String),
      List.Perm (aliasCandidates om ad2 ow) l →
      (insertAll l ∅).erase "" = buildAliases om ad2 ow) := by
  refine ⟨?_, ?_, ?_, ?_, ?_, ?_, ?_, ?_, ?_, ?_⟩
  · intro hne
    rw [mem_buildAliases]
    exact ⟨hne, by simp [aliasCandidates]⟩
  · intro hne
    rw [mem_buildAliases]
    exact ⟨hne, by simp [aliasCandidates]⟩
  · intro hne
    rw [mem_buildAliases]
    exact ⟨hne, by simp [aliasCandidates]⟩
  · intro a ha hch hne
    rw [mem_buildAliases]
    refine ⟨hne, ?_⟩
    simp [aliasCandidates, ha, hch]
  · intro a ha hne
    rw [mem_buildAliases]
    refine ⟨hne, ?_⟩
    simp [aliasCandidates, ha, hne]
  · intro hne
    rw [mem_buildAliases]
    exact ⟨hne, by simp [aliasCandidates]⟩
  · intro hne
    rw [mem_buildAliases]
    exact ⟨hne, by simp [aliasCandidates]⟩
  · intro hne
    rw [mem_buildAliases]
    exact ⟨hne, by simp [aliasCandidates]⟩
  · rw [mem_buildAliases]
    intro hmem
    exact hmem.1 rfl
  · intro om ad2 ow l hperm
    unfold buildAliases
    rw [insertAll_eq, insertAll_eq]
    have hfeq : (aliasCandidates om ad2 ow).toFinset = l.toFinset := by
      apply Finset.ext
      intro x
      rw [List.mem_toFinset, List.mem_toFinset]
      exact hperm.mem_iff
    rw [hfeq]

/-- Witness for C6 at the concrete fixture: every listed name is in the
set, the empty string is not, and a reversed insertion order builds the
same set. -/
theorem claim_buildAliases_witness :
    (districtD5.district ≠ "" ∧
      districtD5.district ∈ buildAliases (some districtD5)
        [(districtKey districtD5, aliasEntryS)] (some wardB)) ∧
    (alookup (districtKey districtD5)
        [(districtKey districtD5, aliasEntryS)] = some aliasEntryS ∧
      aliasEntryS.provinceChanged = true ∧ aliasEntryS.oldProvince ≠ "" ∧
      aliasEntryS.oldProvince ∈ buildAliases (some districtD5)
        [(districtKey districtD5, aliasEntryS)] (some wardB)) ∧
    (wardB.wardShort ≠ "" ∧
      wardB.wardShort ∈ buildAliases (some districtD5)
        [(districtKey districtD5, aliasEntryS)] (some wardB)) ∧
    "" ∉ buildAliases (some districtD5)
      [(districtKey districtD5, aliasEntryS)] (some wardB) ∧
    (List.Perm (aliasCandidates (some districtD5)
        [(districtKey districtD5, aliasEntryS)] (some wardB))
        ["X", "B", "Phuong B", "NewP", "OldP", "P", "D5", "Huyen D5"] ∧
      (insertAll ["X", "B", "Phuong B", "NewP", "OldP", "P", "D5", "Huyen D5"]
          ∅).erase "" =
        buildAliases (some districtD5)
          [(districtKey districtD5, aliasEntryS)] (some wardB)) :=
  ⟨⟨by decide,
    (claim_buildAliases districtD5 [(districtKey districtD5, aliasEntryS)]
      wardB).1 (by decide)⟩,
   ⟨by decide, by decide, by decide,
    (claim_buildAliases districtD5 [(districtKey districtD5, aliasEntryS)]
      wardB).2.2.2.1 aliasEntryS (by decide) (by decide) (by decide)⟩,
   ⟨by decide,
    (claim_buildAliases districtD5 [(districtKey districtD5, aliasEntryS)]
      wardB).2.2.2.2.2.2.1 (by decide)⟩,
   (claim_buildAliases districtD5 [(districtKey districtD5, aliasEntryS)]
      wardB).2.2.2.2.2.2.2.2.1,
   ⟨by decide,
    (claim_buildAliases districtD5 [(districtKey districtD5, aliasEntryS)]
      wardB).2.2.2.2.2.2.2.2.2 (some districtD5)
      [(districtKey districtD5, aliasEntryS)] (some wardB)
      ["X", "B", "Phuong B", "NewP", "OldP", "P", "D5", "Huyen D5"]
      (by decide)⟩⟩

/-! ### Properties of diacritic folding -/

theorem nfdTable_facts :
    (nfdTable.all fun e => e.2.all outOK && !outOK e.1) = true := by decide

theorem outOK_not_key (c : Char) (hc : outOK c = true) :
    nfdTable.find? (fun e => e.1 == c) = none := by
  rw [List.find?_eq_none]
  intro e he
  have hall := List.all_eq_true.mp nfdTable_facts e he
  rw [Bool.and_eq_true] at hall
  intro hbeq
  have heq : e.1 = c := beq_iff_eq.mp hbeq
  have hout : outOK e.1 = false := by
    have h2 := hall.2
    rwa [Bool.not_eq_true'] at h2
  rw [heq, hc] at hout
  simp at hout

theorem flat_of_outOK (c : Char) (hc : outOK c = true) :
    decomposeChar c = [c] := by
  unfold decomposeChar
  rw [outOK_not_key c hc]

theorem decompose_flat (c : Char) :
    ∀ x ∈ decomposeChar c, decomposeChar x = [x] := by
  intro x hx
  unfold decomposeChar at hx
  cases hf : nfdTable.find? (fun e => e.1 == c) with
  | none =>
    rw [hf] at hx
    simp only [List.mem_singleton] at hx
    subst hx
    unfold decomposeChar
    rw [hf]
  | some e =>
    rw [hf] at hx
    have he := List.mem_of_find?_eq_some hf
    have hall := List.all_eq_true.mp nfdTable_facts e he
    rw [Bool.and_eq_true] at hall
    have hout := List.all_eq_true.mp hall.1 x hx
    exact flat_of_outOK x hout

theorem nfd_flats (l : List Char) (h : ∀ c ∈ l, decomposeChar c = [c]) :
    nfd l = l := by
  induction l with
  | nil => rfl
  | cons c l ih =>
    have hcons : nfd (c :: l) = decomposeChar c ++ nfd l := by
      simp [nfd]
    rw [hcons, h c (List.mem_cons_self c l),
      ih (fun c2 hc2 => h c2 (List.mem_cons_of_mem c hc2))]
    rfl

theorem mem_nfd_flat (l : List Char) (c : Char) (hc : c ∈ nfd l) :
    decomposeChar c = [c] := by
  unfold nfd at hc
  rw [List.mem_flatMap] at hc
  obtain ⟨c0, _, hc0⟩ := hc
  exact decompose_flat c0 c hc0

theorem mapD_flat (c : Char) (h : decomposeChar c = [c]) :
    decomposeChar (mapD c) = [mapD c] := by
  unfold mapD
  by_cases h1 : c = 'đ'
  · rw [if_pos h1]
    exact flat_of_outOK 'd' (by decide)
  · rw [if_neg h1]
    by_cases h2 : c = 'Đ'
    · rw [if_pos h2]
      exact flat_of_outOK 'D' (by decide)
    · rw [if_neg h2]
      exact h

theorem mapD_idem (c : Char) : mapD (mapD c) = mapD c := by
  by_cases h1 : c = 'đ'
  · subst h1; decide
  · by_cases h2 : c = 'Đ'
    · subst h2; decide
    · have hid : mapD c = c := by
        unfold mapD
        rw [if_neg h1, if_neg h2]
      rw [hid, hid]

theorem mapD_not_combining (c : Char) (h : combining c = false) :
    combining (mapD c) = false := by
  unfold mapD
  by_cases h1 : c = 'đ'
  · rw [if_pos h1]; decide
  · rw [if_neg h1]
    by_cases h2 : c = 'Đ'
    · rw [if_pos h2]; decide
    · rw [if_neg h2]; exact h

theorem removeDiacriticsL_idem (l : List Char) :
    removeDiacriticsL (removeDiacriticsL l) = removeDiacriticsL l := by
  unfold removeDiacriticsL
  have hflat : ∀ c ∈ ((nfd l).filter (fun c => !combining c)).map mapD,
      decomposeChar c = [c] := by
    intro c hc
    rw [List.mem_map] at hc
    obtain ⟨c0, hc0, rfl⟩ := hc
    exact mapD_flat c0 (mem_nfd_flat l c0 (List.mem_of_mem_filter hc0))
  rw [nfd_flats _ hflat]
  have hfilter : (((nfd l).filter (fun c => !combining c)).map mapD).filter
      (fun c => !combining c) =
      ((nfd l).filter (fun c => !combining c)).map mapD := by
    rw [List.filter_eq_self]
    intro c hc
    rw [List.mem_map] at hc
    obtain ⟨c0, hc0, rfl⟩ := hc
    have hc0m := List.of_mem_filter hc0
    rw [Bool.not_eq_true'] at hc0m
    have h2 := mapD_not_combining c0 hc0m
    rw [Bool.not_eq_true', h2]
  rw [hfilter]
  have hfun : mapD ∘ mapD = mapD := funext mapD_idem
  rw [List.map_map, hfun]

/-- C7: `removeDiacritics` is idempotent on every string, and maps
`"Đà Nẵng"` to `"Da Nang"` (decomposition, stripping of the combining
marks U+0300–U+036F, then the explicit `đ`/`Đ` to `d`/`D` mapping). -/
theorem claim_removeDiacritics :
    (∀ s : String, removeDiacritics (removeDiacritics s) = removeDiacritics s) ∧
    removeDiacritics "Đà Nẵng" = "Da Nang" := by
  constructor
  · intro s
    exact congrArg String.mk (removeDiacriticsL_idem s.data)
  · decide

/-! ### The enrichment driver -/

theorem addStats_zero_right (a : Stats) : addStats a ⟨0, 0, 0⟩ = a := by
  cases a
  simp [addStats]

theorem addStats_zero_left (a : Stats) : addStats ⟨0, 0, 0⟩ a = a := by
  cases a
  simp [addStats]

theorem addStats_assoc (a b c : Stats) :
    addStats (addStats a b) c = addStats a (addStats b c) := by
  cases a; cases b; cases c
  simp [addStats, Nat.add_assoc]

theorem foldl_addStats (l : List Stats) :
    ∀ a : Stats, l.foldl addStats a = addStats a (sumStats l) := by
  induction l with
  | nil => intro a; exact (addStats_zero_right a).symm
  | cons x l ih =>
    intro a
    rw [List.foldl_cons, ih (addStats a x)]
    have hx : sumStats (x :: l) = addStats x (sumStats l) := by
      show List.foldl addStats (⟨0, 0, 0⟩ : Stats) (x :: l) =
        addStats x (sumStats l)
      rw [List.foldl_cons, addStats_zero_left]
      exact ih x
    rw [hx, addStats_assoc]

theorem sumStats_cons (s : Stats) (l : List Stats) :
    sumStats (s :: l) = addStats s (sumStats l) := by
  show List.foldl addStats (⟨0, 0, 0⟩ : Stats) (s :: l) = addStats s (sumStats l)
  rw [List.foldl_cons, addStats_zero_left]
  exact foldl_addStats l s

theorem enrichPass_decomp (env : Env) (hs : List Hospital) :
    ∀ acc : List Hospital × Stats,
      hs.foldl (enrichStep env) acc =
        (acc.1 ++ hs.map (fun x => (enrichRecord env x).1),
         addStats acc.2 (sumStats (hs.map (fun x => (enrichRecord env x).2)))) := by
  induction hs with
  | nil =>
    intro acc
    rw [List.foldl_nil, List.map_nil, List.map_nil, List.append_nil]
    rw [show sumStats [] = ⟨0, 0, 0⟩ from rfl, addStats_zero_right]
  | cons h hs ih =>
    intro acc
    rw [List.foldl_cons, ih]
    rw [List.map_cons, List.map_cons, sumStats_cons]
    unfold enrichStep
    rw [List.append_assoc, ← addStats_assoc]
    rfl

/-- C8: a record whose map link yields no coordinate keeps its
administrative fields (`oldDistrict`, `oldProvince`, `newWard`,
`newProvince`, `aliases`) unchanged and contributes exactly one to the
unmatched counter and nothing to the other two; the driver visits each
record once (the output collection is the per-record map) and reports the
three counts as the sum of the per-record contributions. -/
theorem claim_driver_frame (env : Env) (h : Hospital) (hs : List Hospital) :
    (env.ec h.mapsUrl = none →
      (enrichRecord env h).1.oldDistrict = h.oldDistrict ∧
      (enrichRecord env h).1.oldProvince = h.oldProvince ∧
      (enrichRecord env h).1.newWard = h.newWard ∧
      (enrichRecord env h).1.newProvince = h.newProvince ∧
      (enrichRecord env h).1.aliases = h.aliases ∧
      (enrichRecord env h).2 = ⟨0, 0, 1⟩) ∧
    enrichPass env hs =
      (hs.map (fun x => (enrichRecord env x).1),
       sumStats (hs.map (fun x => (enrichRecord env x).2))) := by
  constructor
  · intro hec
    have hrec : enrichRecord env h = (h, ⟨0, 0, 1⟩) := by
      unfold enrichRecord
      rw [hec]
    rw [hrec]
    exact ⟨rfl, rfl, rfl, rfl, rfl, rfl⟩
  · unfold enrichPass
    rw [enrichPass_decomp env hs ([], ⟨0, 0, 0⟩)]
    rw [List.nil_append, addStats_zero_left]

/-- Witness for C8: in the environment whose extraction always fails, a
record is left unchanged and counted unmatched exactly once, and the
one-record driver pass is the map-and-sum of per-record results. -/
theorem claim_driver_frame_witness :
    (envN.ec hospW.mapsUrl = none ∧
      ((enrichRecord envN hospW).1.oldDistrict = hospW.oldDistrict ∧
       (enrichRecord envN hospW).1.oldProvince = hospW.oldProvince ∧
       (enrichRecord envN hospW).1.newWard = hospW.newWard ∧
       (enrichRecord envN hospW).1.newProvince = hospW.newProvince ∧
       (enrichRecord envN hospW).1.aliases = hospW.aliases ∧
       (enrichRecord envN hospW).2 = ⟨0, 0, 1⟩)) ∧
    enrichPass envN [hospW] =
      ([hospW].map (fun x => (enrichRecord envN x).1),
       sumStats ([hospW].map (fun x => (enrichRecord envN x).2))) :=
  ⟨⟨rfl, (claim_driver_frame envN hospW [hospW]).1 rfl⟩,
   (claim_driver_frame envN hospW [hospW]).2⟩
